import Mathlib

/-
Verification of the SNIES program-name matcher.

The matcher appears, token for token identical, in
  app.py            (buscar_programa_snies, the Jaccard search block),
  src/main.py       (_buscar_programa_mejorado, PASO 1 and PASO 2), and
  tests/test_filtrosSNIES.py (buscar_y_extraer_programa, PASO 2).
It takes a free-text query and a catalog of program names and returns the
sorted, deduplicated list of catalog entries judged equivalent.

Modelling conventions:
  * Python str.lower is modelled on the ASCII and Latin-1 letter ranges,
    which cover the Spanish alphabet used by the data (A-Z and the accented
    uppercase letters with code points 192-222, excluding the multiplication
    sign 215).  Code points outside these ranges are left unchanged.
  * Python str.split() is modelled as splitting on maximal runs of ASCII
    whitespace, discarding empty pieces.
  * Python float arithmetic is modelled with exact rationals.  The only
    floats the code computes are (n-1)/n and k/n with 0 <= k <= n bounded by
    the token count of the query, where float division is exactly monotone,
    so the comparisons coincide.
  * Python sorted(list(set(xs))) is modelled as an insertion sort, on the
    code-point lexicographic order that Python uses for strings, applied to
    a duplicate-free enumeration of the elements of xs.
-/

/-- Lower-casing of a single character, as Python str.lower acts on the
ASCII range and the Latin-1 uppercase letters (code points 192-222 except
215, covering Á É Í Ó Ú Ü Ñ). -/
def lowerChar (c : Char) : Char :=
  if 65 ≤ c.toNat ∧ c.toNat ≤ 90 then Char.ofNat (c.toNat + 32)
  else if 192 ≤ c.toNat ∧ c.toNat ≤ 222 ∧ c.toNat ≠ 215 then Char.ofNat (c.toNat + 32)
  else c

/-- Python str.lower on a whole string: lower-case every character. -/
def pyLower (s : String) : String := ⟨s.data.map lowerChar⟩

/-- ASCII whitespace, the separators recognised by Python str.split(). -/
def isPySpace (c : Char) : Bool :=
  decide (c.toNat = 32) || decide (c.toNat = 9) || decide (c.toNat = 10) ||
  decide (c.toNat = 13) || decide (c.toNat = 11) || decide (c.toNat = 12)

/-- Accumulator-based word splitter: cuts the character list at whitespace,
dropping empty pieces.  The accumulator holds the current word reversed. -/
def wordsAux : List Char → List Char → List (List Char)
  | [], acc => if acc.isEmpty then [] else [acc.reverse]
  | c :: cs, acc =>
    if isPySpace c then
      if acc.isEmpty then wordsAux cs [] else acc.reverse :: wordsAux cs []
    else wordsAux cs (c :: acc)

/-- Python str.split() with no separator argument: whitespace-delimited
tokens, empty tokens discarded. -/
def pySplit (s : String) : List String := (wordsAux s.data []).map String.mk

/-- Stop-word set: `palabras_comunes` in app.py line 92, src/main.py line 48
and tests/test_filtrosSNIES.py line 34. -/
def palabras_comunes : List String :=
  ["de", "la", "el", "y", "en", "a", "o", "los", "las", "un", "una", "del", "con"]

/-- Shared comprehension `[p.lower() for p in s.split() if p.lower() not in
palabras_comunes]`: lower-cased whitespace tokens with stop words removed,
order preserved.  Both the query-side and the catalog-side token lists are
this comprehension (app.py lines 93 and 102). -/
def filtro (s : String) : List String :=
  ((pySplit s).map pyLower).filter (fun p => decide (p ∉ palabras_comunes))

/-- Ordered filtered token list of the query: `palabras_ordenadas`
(app.py line 94). -/
def palabras_ordenadas (q : String) : List String := filtro q

/-- Significant-token set of the query: `programa_palabras`
(app.py line 93). -/
def programa_palabras (q : String) : Finset String := (filtro q).toFinset

/-- Significant-token set of a catalog entry: `prg_palabras`
(app.py line 102); str(prg) is the identity on strings. -/
def prg_palabras (c : String) : Finset String := (filtro c).toFinset

/-- Required words: the first two ordered filtered tokens, or all of them
when fewer than two survive (`requerido`, app.py line 95). -/
def requerido (q : String) : Finset String :=
  if (palabras_ordenadas q).length ≥ 2 then ((palabras_ordenadas q).take 2).toFinset
  else (palabras_ordenadas q).toFinset

/-- Effective query size `n = len(programa_palabras) if len > 0 else 1`
(app.py line 97). -/
def nQ (q : String) : Nat :=
  if (programa_palabras q).card > 0 then (programa_palabras q).card else 1

/-- Qualification threshold `umbral_jaccard = (n-1)/n if n > 1 else 1.0`
(app.py line 98), as an exact rational. -/
def umbral_jaccard (q : String) : ℚ :=
  if nQ q > 1 then mkRat (nQ q - 1) (nQ q) else 1

/-- Query-coverage ratio `jaccard = interseccion / len(programa_palabras)
if len > 0 else 1.0` (app.py line 104), as an exact rational. -/
def jaccard (q c : String) : ℚ :=
  if (programa_palabras q).card > 0 then
    mkRat ((programa_palabras q ∩ prg_palabras c).card) (programa_palabras q).card
  else 1

/-- Acceptance test for one catalog entry:
`jaccard >= umbral_jaccard and tiene_requeridas` (app.py lines 105-107). -/
def qualifies (q c : String) : Prop :=
  jaccard q c ≥ umbral_jaccard q ∧ requerido q ⊆ prg_palabras c

instance (q c : String) : Decidable (qualifies q c) := by
  unfold qualifies; infer_instance

/-- Accepted entries in catalog order, possibly with duplicates:
`coincidencias` (app.py lines 100-107). -/
def coincidencias (q : String) (catalog : List String) : List String :=
  catalog.filter (fun c => decide (qualifies q c))

/-- Comparison used by Python sorted on strings: code-point lexicographic
order, i.e. the lexicographic order on the character lists. -/
def strLe (a b : String) : Prop := a.data ≤ b.data

instance : DecidableRel strLe := fun a b => by
  unfold strLe; infer_instance

/-- The matcher: `sorted(list(set(coincidencias)))` (app.py line 110).
This is the full fuzzy-search routine of buscar_programa_snies
(app.py lines 92-110) and _buscar_programa_mejorado
(src/main.py lines 48-78). -/
def find_equivalents (q : String) (catalog : List String) : List String :=
  List.insertionSort strLe (coincidencias q catalog).dedup

/-- Modelled from the spec: the defensive raw-token fallback of spec
section 4.1 step 1, which is absent from every copy of the routine in the
source (app.py, src/main.py, tests/test_filtrosSNIES.py).  When no token of
the query survives stop-word filtering, the spec says to take Q to be the
set of lower-cased raw tokens unfiltered and to run the same matching with
that Q; Required still comes from the (empty) filtered list and the
threshold still uses n = 1 when Q is empty. -/
def programa_palabras_specFallback (q : String) : Finset String :=
  if (filtro q).isEmpty then ((pySplit q).map pyLower).toFinset
  else (filtro q).toFinset

/-- Modelled from the spec: the matcher as spec section 4.1 describes it,
with the raw-token fallback of step 1 in place of the empty filtered set;
all other steps are unchanged. -/
def find_equivalents_specFallback (q : String) (catalog : List String) : List String :=
  List.insertionSort strLe
    ((catalog.filter (fun c =>
      decide ((if (programa_palabras_specFallback q).card > 0 then
          mkRat ((programa_palabras_specFallback q ∩ prg_palabras c).card)
            (programa_palabras_specFallback q).card
        else 1) ≥
        (if (if (programa_palabras_specFallback q).card > 0 then
              (programa_palabras_specFallback q).card else 1) > 1 then
          mkRat ((if (programa_palabras_specFallback q).card > 0 then
              (programa_palabras_specFallback q).card else 1) - 1)
            (if (programa_palabras_specFallback q).card > 0 then
              (programa_palabras_specFallback q).card else 1)
        else 1) ∧
        requerido q ⊆ prg_palabras c))).dedup)

/-- Valid small code points survive the Char.ofNat round trip. -/
theorem toNat_ofNat_small (n : Nat) (h : n < 55296) : (Char.ofNat n).toNat = n := by
  unfold Char.ofNat
  rw [dif_pos (Or.inl h)]
  simp [Char.ofNatAux, Char.toNat, UInt32.toNat, UInt32.ofNatCore]

/-- Characters at code point 33 or above are not whitespace. -/
theorem isPySpace_false_of_ge (c : Char) (h : 33 ≤ c.toNat) : isPySpace c = false := by
  simp only [isPySpace, Bool.or_eq_false_iff, decide_eq_false_iff_not]
  omega

/-- Lower-case letters and lower-case Latin-1 letters are fixed points of
lowerChar. -/
theorem lowerChar_fixed (c : Char)
    (h : (97 ≤ c.toNat ∧ c.toNat ≤ 122) ∨ (224 ≤ c.toNat ∧ c.toNat ≤ 254)) :
    lowerChar c = c := by
  unfold lowerChar
  rw [if_neg (by omega), if_neg (by omega)]

/-- Lower-casing does not create or destroy whitespace. -/
theorem isPySpace_lowerChar (c : Char) : isPySpace (lowerChar c) = isPySpace c := by
  by_cases h1 : 65 ≤ c.toNat ∧ c.toNat ≤ 90
  · have e : lowerChar c = Char.ofNat (c.toNat + 32) := by
      unfold lowerChar; rw [if_pos h1]
    rw [e, isPySpace_false_of_ge _ (by rw [toNat_ofNat_small _ (by omega)]; omega),
      isPySpace_false_of_ge _ (by omega)]
  · by_cases h2 : 192 ≤ c.toNat ∧ c.toNat ≤ 222 ∧ c.toNat ≠ 215
    · have e : lowerChar c = Char.ofNat (c.toNat + 32) := by
        unfold lowerChar; rw [if_neg h1, if_pos h2]
      rw [e, isPySpace_false_of_ge _ (by rw [toNat_ofNat_small _ (by omega)]; omega),
        isPySpace_false_of_ge _ (by omega)]
    · have e : lowerChar c = c := by unfold lowerChar; rw [if_neg h1, if_neg h2]
      rw [e]

/-- Lower-casing a character is idempotent. -/
theorem lowerChar_idem (c : Char) : lowerChar (lowerChar c) = lowerChar c := by
  by_cases h1 : 65 ≤ c.toNat ∧ c.toNat ≤ 90
  · have e : lowerChar c = Char.ofNat (c.toNat + 32) := by
      unfold lowerChar; rw [if_pos h1]
    rw [e]
    exact lowerChar_fixed _ (by rw [toNat_ofNat_small _ (by omega)]; omega)
  · by_cases h2 : 192 ≤ c.toNat ∧ c.toNat ≤ 222 ∧ c.toNat ≠ 215
    · have e : lowerChar c = Char.ofNat (c.toNat + 32) := by
        unfold lowerChar; rw [if_neg h1, if_pos h2]
      rw [e]
      exact lowerChar_fixed _ (by rw [toNat_ofNat_small _ (by omega)]; omega)
    · have e : lowerChar c = c := by unfold lowerChar; rw [if_neg h1, if_neg h2]
      rw [e, e]

/-- Word splitting commutes with character-wise lower-casing. -/
theorem wordsAux_map_lowerChar (l acc : List Char) :
    wordsAux (l.map lowerChar) (acc.map lowerChar) =
      (wordsAux l acc).map (List.map lowerChar) := by
  induction l generalizing acc with
  | nil =>
    cases acc with
    | nil => simp [wordsAux]
    | cons a as => simp [wordsAux, List.map_reverse]
  | cons c cs ih =>
    simp only [List.map_cons, wordsAux, isPySpace_lowerChar]
    by_cases h : isPySpace c
    · rw [if_pos h, if_pos h]
      cases acc with
      | nil =>
        simp only [List.map_nil, List.isEmpty_nil, if_pos]
        have := ih []
        simpa using this
      | cons a as =>
        simp only [List.map_cons, List.isEmpty_cons, if_neg Bool.false_ne_true]
        have := ih []
        simp only [List.map_nil] at this
        rw [this, ← List.map_cons, List.map_reverse]
    · rw [if_neg h, if_neg h]
      have := ih (c :: acc)
      simpa using this

/-- Tokenising the lower-cased string tokenises the string and lower-cases
each token. -/
theorem pySplit_pyLower (s : String) :
    pySplit (pyLower s) = (pySplit s).map pyLower := by
  show (wordsAux (s.data.map lowerChar) []).map String.mk =
    ((wordsAux s.data []).map String.mk).map pyLower
  have h0 : (List.map lowerChar []) = ([] : List Char) := rfl
  rw [← h0, wordsAux_map_lowerChar, List.map_map, List.map_map]
  rfl

/-- Lower-casing a string is idempotent. -/
theorem pyLower_idem (s : String) : pyLower (pyLower s) = pyLower s := by
  show (⟨(s.data.map lowerChar).map lowerChar⟩ : String) = ⟨s.data.map lowerChar⟩
  rw [List.map_map]
  exact congrArg String.mk (List.map_congr_left (fun c _ => lowerChar_idem c))

/-- The filtered token list is insensitive to lower-casing the input. -/
theorem filtro_pyLower (s : String) : filtro (pyLower s) = filtro s := by
  unfold filtro
  rw [pySplit_pyLower, List.map_map]
  have : pyLower ∘ pyLower = fun t => pyLower (pyLower t) := rfl
  rw [this]
  have : (fun t => pyLower (pyLower t)) = fun t : String => pyLower t := by
    funext t; exact pyLower_idem t
  rw [this]

instance : IsTotal String strLe :=
  ⟨fun a b => le_total a.data b.data⟩

instance : IsTrans String strLe :=
  ⟨fun _ _ _ h1 h2 => le_trans h1 h2⟩

/-- Membership in the matcher output: exactly the catalog entries that pass
the acceptance test. -/
theorem mem_find_equivalents {q c : String} {catalog : List String} :
    c ∈ find_equivalents q catalog ↔ c ∈ catalog ∧ qualifies q c := by
  unfold find_equivalents coincidencias
  rw [(List.perm_insertionSort strLe _).mem_iff, List.mem_dedup, List.mem_filter,
    decide_eq_true_eq]

/-- With at most one significant word, the effective query size is 1. -/
theorem nQ_eq_one (q : String) (h : (programa_palabras q).card ≤ 1) : nQ q = 1 := by
  unfold nQ
  rcases Nat.eq_zero_or_pos (programa_palabras q).card with h0 | h0
  · rw [if_neg (by omega)]
  · rw [if_pos (by omega)]
    omega

/-- With at least two significant words, the effective query size is the
cardinality of the significant-word set. -/
theorem nQ_eq_card (q : String) (h : 1 < (programa_palabras q).card) :
    nQ q = (programa_palabras q).card := by
  unfold nQ
  rw [if_pos (by omega)]

/-- Evaluation of the threshold as a fraction of the significant-word
count. -/
theorem umbral_jaccard_eq (q : String) :
    umbral_jaccard q =
      if 1 < (programa_palabras q).card then
        (((programa_palabras q).card : ℚ) - 1) / ((programa_palabras q).card : ℚ)
      else 1 := by
  rcases Nat.lt_or_ge 1 (programa_palabras q).card with h | h
  · unfold umbral_jaccard
    rw [nQ_eq_card q h, if_pos h, if_pos h, Rat.mkRat_eq_div]
    push_cast
    ring_nf
  · unfold umbral_jaccard
    rw [nQ_eq_one q h, if_neg (by omega), if_neg (by omega)]

/-- The coverage test against the threshold, reduced to counting how many
significant query words are missing from the candidate. -/
theorem coverage_iff (q c : String) :
    jaccard q c ≥ umbral_jaccard q ↔
      (if 1 < (programa_palabras q).card then
        (programa_palabras q \ prg_palabras c).card ≤ 1
      else programa_palabras q ⊆ prg_palabras c) := by
  have hsum : (programa_palabras q ∩ prg_palabras c).card
      + (programa_palabras q \ prg_palabras c).card = (programa_palabras q).card :=
    Finset.card_inter_add_card_sdiff _ _
  rcases Nat.lt_or_ge 1 (programa_palabras q).card with h | h
  · rw [if_pos h]
    unfold jaccard umbral_jaccard
    rw [nQ_eq_card q h, if_pos (by omega), if_pos h, ge_iff_le,
      Rat.mkRat_eq_divInt, Rat.mkRat_eq_divInt,
      Rat.divInt_le_divInt (by exact_mod_cast Nat.lt_of_lt_of_le Nat.zero_lt_one (le_of_lt h))
        (by exact_mod_cast Nat.lt_of_lt_of_le Nat.zero_lt_one (le_of_lt h)),
      mul_le_mul_right (by exact_mod_cast Nat.lt_of_lt_of_le Nat.zero_lt_one (le_of_lt h) :
        (0 : ℤ) < (programa_palabras q).card)]
    omega
  · rw [if_neg (by omega)]
    rcases Nat.eq_zero_or_pos (programa_palabras q).card with h0 | h0
    · unfold jaccard
      rw [if_neg (by omega), umbral_jaccard_eq, if_neg (by omega)]
      simp only [ge_iff_le, le_refl, true_iff]
      rw [Finset.card_eq_zero] at h0
      rw [h0]
      exact Finset.empty_subset _
    · have hc : (programa_palabras q).card = 1 := by omega
      obtain ⟨a, ha⟩ := Finset.card_eq_one.mp hc
      unfold jaccard
      rw [if_pos (by omega), umbral_jaccard_eq, if_neg (by omega), hc, ha,
        Rat.mkRat_eq_div]
      constructor
      · intro hle
        rw [Finset.singleton_subset_iff]
        by_contra hnot
        rw [Finset.singleton_inter_of_not_mem hnot] at hle
        norm_num at hle
      · intro hsub
        rw [Finset.singleton_subset_iff] at hsub
        rw [Finset.singleton_inter_of_mem hsub]
        norm_num

/-- Query-side and catalog-side token sets are computed by the same
comprehension. -/
theorem prg_palabras_eq (s : String) : prg_palabras s = programa_palabras s := rfl

/-- The required words are always among the significant words of the
query. -/
theorem requerido_subset (q : String) : requerido q ⊆ programa_palabras q := by
  unfold requerido palabras_ordenadas programa_palabras
  split
  · intro x hx
    exact List.mem_toFinset.mpr (List.take_subset 2 _ (List.mem_toFinset.mp hx))
  · exact fun x hx => hx

/-- A query whose every whitespace token lower-cases into a stop word has
an empty filtered token list. -/
theorem filtro_eq_nil {q : String}
    (h : ∀ t ∈ pySplit q, pyLower t ∈ palabras_comunes) : filtro q = [] := by
  unfold filtro
  rw [List.filter_eq_nil_iff]
  intro p hp
  rw [List.mem_map] at hp
  obtain ⟨t, ht, rfl⟩ := hp
  simp only [decide_eq_true_eq, not_not]
  exact h t ht

/-- With an empty filtered token list every catalog entry passes the
acceptance test: coverage and threshold are both 1 and no word is
required. -/
theorem qualifies_of_degenerate {q : String} (h : filtro q = []) (c : String) :
    qualifies q c := by
  have hQ : programa_palabras q = ∅ := by
    unfold programa_palabras
    rw [h]
    rfl
  constructor
  · have hj : jaccard q c = 1 := by
      unfold jaccard
      rw [hQ]
      simp
    have hu : umbral_jaccard q = 1 := by
      unfold umbral_jaccard
      rw [nQ_eq_one q (by rw [hQ]; simp)]
      simp
    rw [hj, hu]
  · have hr : requerido q = ∅ := by
      unfold requerido palabras_ordenadas
      rw [h]
      simp
    rw [hr]
    exact Finset.empty_subset _

/-- C1, counterexample: on the all-stop-word query "de" and the catalog
["Física"] the matcher in the source returns the whole catalog, while
matching as if Q were the raw token set {de}, as the claim asserts, returns
nothing: the code does not fall back to the raw tokens. -/
theorem C1_counterexample :
    find_equivalents "de" ["Física"] = ["Física"] ∧
      find_equivalents_specFallback "de" ["Física"] = [] := by
  constructor <;> decide

/-- C1, amended: for every catalog, if the query is empty or every
whitespace token of the query is (after lower-casing) a stop word, then
find_equivalents still returns a value, but no raw-token fallback exists:
the filtered set stays empty, every catalog entry qualifies, and the result
consists of exactly the catalog entries. -/
theorem C1_degenerate_no_fallback (q : String) (catalog : List String)
    (h : ∀ t ∈ pySplit q, pyLower t ∈ palabras_comunes) (c : String) :
    c ∈ find_equivalents q catalog ↔ c ∈ catalog := by
  rw [mem_find_equivalents]
  exact ⟨fun hc => hc.1, fun hc => ⟨hc, qualifies_of_degenerate (filtro_eq_nil h) c⟩⟩

/-- C1, witness of the amended claim at the query "de" and the catalog
["Física"]. -/
theorem C1_witness :
    (∀ t ∈ pySplit "de", pyLower t ∈ palabras_comunes) ∧
      ("Física" ∈ find_equivalents "de" ["Física"] ↔ "Física" ∈ ["Física"]) :=
  ⟨by decide, C1_degenerate_no_fallback "de" ["Física"] (by decide) "Física"⟩

/-- C2: the qualification threshold equals (n-1)/n when the query has more
than one significant word, and 1.0 when it has at most one (n taken as 1
when the filtered set is empty); consequently an entry passes the coverage
test exactly when at most one significant query word is missing from it,
and a one-word query requires its word to be contained. -/
theorem C2_threshold_coverage (q c : String) :
    (umbral_jaccard q =
      if 1 < (programa_palabras q).card then
        (((programa_palabras q).card : ℚ) - 1) / ((programa_palabras q).card : ℚ)
      else 1) ∧
    (jaccard q c ≥ umbral_jaccard q ↔
      (if 1 < (programa_palabras q).card then
        (programa_palabras q \ prg_palabras c).card ≤ 1
      else programa_palabras q ⊆ prg_palabras c)) :=
  ⟨umbral_jaccard_eq q, coverage_iff q c⟩

/-- C3: an entry is included in the result only if the required words, the
set of the first two stop-word-filtered lower-cased query tokens, all occur
among the entry tokens; in particular, for the query "Doctorado Ciencias
Sociales" the entry "Maestría en Ciencias Sociales" is never returned,
whatever the catalog. -/
theorem C3_required_words :
    (∀ (q : String) (catalog : List String) (c : String),
        c ∈ find_equivalents q catalog → requerido q ⊆ prg_palabras c) ∧
      (∀ catalog : List String,
        "Maestría en Ciencias Sociales" ∉
          find_equivalents "Doctorado Ciencias Sociales" catalog) := by
  constructor
  · intro q catalog c hc
    exact (mem_find_equivalents.mp hc).2.2
  · intro catalog hmem
    exact (by decide :
        ¬ qualifies "Doctorado Ciencias Sociales" "Maestría en Ciencias Sociales")
      (mem_find_equivalents.mp hmem).2

/-- C3, witness: the required-word inclusion instantiated on a concrete
match. -/
theorem C3_witness :
    requerido "Doctorado Ciencias Sociales" ⊆
      prg_palabras "Doctorado en Ciencias Sociales" :=
  C3_required_words.1 "Doctorado Ciencias Sociales" ["Doctorado en Ciencias Sociales"]
    "Doctorado en Ciencias Sociales" (by decide)

/-- C4: the end-to-end example of the spec: on the four-entry catalog the
matcher returns exactly the two Doctorado entries about Ciencias Sociales,
in ascending order. -/
theorem C4_example :
    find_equivalents "Doctorado Ciencias Sociales"
      ["Doctorado en Ciencias Sociales", "Doctorado Ciencias Sociales",
       "Maestría en Ciencias Sociales", "Doctorado en Física"] =
      ["Doctorado Ciencias Sociales", "Doctorado en Ciencias Sociales"] := by
  decide

/-- C5: every string in the matcher result is literally an element of the
catalog; the function never synthesises a new string. -/
theorem C5_result_subset (q : String) (catalog : List String) (c : String)
    (h : c ∈ find_equivalents q catalog) : c ∈ catalog :=
  (mem_find_equivalents.mp h).1

/-- C5, witness at a concrete query and catalog. -/
theorem C5_witness :
    "Doctorado Ciencias Sociales" ∈
      ["Doctorado en Física", "Doctorado Ciencias Sociales"] :=
  C5_result_subset "Doctorado Ciencias Sociales"
    ["Doctorado en Física", "Doctorado Ciencias Sociales"]
    "Doctorado Ciencias Sociales" (by decide)

/-- C6: the matcher output never contains duplicates and is sorted
ascending in the code-point lexicographic order on the original catalog
strings; a catalog holding a matching string twice therefore yields it
once. -/
theorem C6_nodup_sorted (q : String) (catalog : List String) :
    (find_equivalents q catalog).Nodup ∧
      List.Sorted (· ≤ ·) (find_equivalents q catalog) := by
  constructor
  · exact (List.perm_insertionSort strLe _).nodup_iff.mpr (List.nodup_dedup _)
  · have hs : List.Sorted strLe (find_equivalents q catalog) :=
      List.sorted_insertionSort strLe _
    exact hs.imp (fun hab => String.le_iff_toList_le.mpr hab)

/-- C7: a non-degenerate query present verbatim in the catalog always
appears in its own result: its token set covers itself and contains its own
required words. -/
theorem C7_self_match (q : String) (catalog : List String)
    (h1 : (programa_palabras q).Nonempty) (h2 : q ∈ catalog) :
    q ∈ find_equivalents q catalog := by
  refine mem_find_equivalents.mpr ⟨h2, ?_, ?_⟩
  · rw [coverage_iff, prg_palabras_eq]
    split
    · simp
    · exact Finset.Subset.refl _
  · rw [prg_palabras_eq]
    exact requerido_subset q

/-- C7, witness at a concrete non-degenerate query contained in the
catalog. -/
theorem C7_witness :
    (programa_palabras "Doctorado Ciencias Sociales").Nonempty ∧
      "Doctorado Ciencias Sociales" ∈
        find_equivalents "Doctorado Ciencias Sociales"
          ["Doctorado en Física", "Doctorado Ciencias Sociales"] :=
  ⟨by decide,
    C7_self_match "Doctorado Ciencias Sociales"
      ["Doctorado en Física", "Doctorado Ciencias Sociales"] (by decide) (by decide)⟩

/-- C8: the matcher is a total function of its two arguments, modelled here
by a total Lean function, and on the empty catalog it returns the empty
result for every query. -/
theorem C8_empty_catalog (q : String) : find_equivalents q [] = [] := rfl

/-- C9: matching is case-insensitive: lower-casing the query and the
candidate entry never changes whether the entry qualifies; in particular
the query "MAESTRÍA FINANZAS" matches the entry "maestría en finanzas",
exactly as their lower-cased forms do. -/
theorem C9_case_insensitive :
    (∀ q c : String, qualifies q c ↔ qualifies (pyLower q) (pyLower c)) ∧
      qualifies "MAESTRÍA FINANZAS" "maestría en finanzas" ∧
      qualifies (pyLower "MAESTRÍA FINANZAS") (pyLower "maestría en finanzas") := by
  refine ⟨fun q c => ?_, by decide, by decide⟩
  unfold qualifies jaccard umbral_jaccard nQ requerido palabras_ordenadas
    programa_palabras prg_palabras
  rw [filtro_pyLower, filtro_pyLower]

/-- C10: a degenerate query (empty, or all tokens stop words) makes the
coverage ratio 1, the threshold 1 and the required set empty, so every
entry qualifies and the matcher returns the entire catalog, deduplicated
and sorted. -/
theorem C10_degenerate_returns_catalog (q : String) (catalog : List String)
    (h : ∀ t ∈ pySplit q, pyLower t ∈ palabras_comunes) :
    find_equivalents q catalog = List.insertionSort strLe catalog.dedup ∧
      (∀ c, jaccard q c = 1) ∧ umbral_jaccard q = 1 ∧ requerido q = ∅ := by
  have hnil : filtro q = [] := filtro_eq_nil h
  have hQ : programa_palabras q = ∅ := by
    unfold programa_palabras
    rw [hnil]
    rfl
  refine ⟨?_, fun c => ?_, ?_, ?_⟩
  · unfold find_equivalents coincidencias
    rw [List.filter_eq_self.mpr]
    intro c _
    exact decide_eq_true (qualifies_of_degenerate hnil c)
  · unfold jaccard
    rw [hQ]
    simp
  · unfold umbral_jaccard
    rw [nQ_eq_one q (by rw [hQ]; simp)]
    simp
  · unfold requerido palabras_ordenadas
    rw [hnil]
    simp

/-- C10, witness at the all-stop-word query "de la". -/
theorem C10_witness :
    (∀ t ∈ pySplit "de la", pyLower t ∈ palabras_comunes) ∧
      (find_equivalents "de la" ["Física", "Arte"] =
          List.insertionSort strLe (["Física", "Arte"].dedup) ∧
        (∀ c, jaccard "de la" c = 1) ∧ umbral_jaccard "de la" = 1 ∧
        requerido "de la" = ∅) :=
  ⟨by decide, C10_degenerate_returns_catalog "de la" ["Física", "Arte"] (by decide)⟩
